import Mathlib

/-!
Shallow embedding of `src/api/generate-images.ts`.

The file renders two percentage profiles onto base images using the
node-canvas 2D API and exposes a Vercel handler.  We model the 2D context
as a record of its text/shadow state plus a log of drawing operations;
numbers are rationals (JS numbers are binary floats, a subset of ℚ);
fallible operations return `Except String`.
-/

namespace GenerateImages

/-- Horizontal text alignment values of the canvas API (`CanvasTextAlign`).
`start` is the context default. -/
inductive TextAlign
  | left | center | right | start
  deriving DecidableEq, Repr

/-- Vertical baseline values of the canvas API (`CanvasTextBaseline`).
`alphabetic` is the context default. -/
inductive TextBaseline
  | top | middle | bottom | alphabetic | hanging
  deriving DecidableEq, Repr

/-- A loaded base image: its pixel dimensions and the source it was
loaded from (`loadImage(url)` binds the handle to the url). -/
structure Image where
  width : Nat
  height : Nat
  src : String
  deriving DecidableEq, Repr

/-- The state captured by one `ctx.fillText` call: the text and position
together with the text and shadow configuration active at the moment of
the draw. -/
structure FillTextCall where
  text : String
  x : ℚ
  y : ℚ
  font : String
  fillStyle : String
  textAlign : TextAlign
  textBaseline : TextBaseline
  shadowColor : String
  shadowBlur : ℚ
  shadowOffsetX : ℚ
  shadowOffsetY : ℚ
  deriving DecidableEq, Repr

/-- One drawing operation recorded on a context. -/
inductive DrawOp
  | drawImage (img : Image) (dx dy : ℚ)
  | fillText (call : FillTextCall)
  deriving DecidableEq, Repr

/-- The mutable state of a `CanvasRenderingContext2D`: the current text
and shadow configuration, plus the ordered log of operations performed.
Field defaults are the canvas-spec initial values of a fresh context. -/
structure Ctx where
  font : String := "10px sans-serif"
  fillStyle : String := "#000000"
  textAlign : TextAlign := .start
  textBaseline : TextBaseline := .alphabetic
  shadowColor : String := "rgba(0, 0, 0, 0)"
  shadowBlur : ℚ := 0
  shadowOffsetX : ℚ := 0
  shadowOffsetY : ℚ := 0
  ops : List DrawOp := []
  deriving DecidableEq, Repr

/-- `ctx.drawImage(img, dx, dy)`: records the composite of the image. -/
def Ctx.drawImage (ctx : Ctx) (img : Image) (dx dy : ℚ) : Ctx :=
  { ctx with ops := ctx.ops ++ [DrawOp.drawImage img dx dy] }

/-- `ctx.fillText(text, x, y)`: records a text draw capturing the current
text and shadow state. -/
def Ctx.fillText (ctx : Ctx) (text : String) (x y : ℚ) : Ctx :=
  { ctx with ops := ctx.ops ++ [DrawOp.fillText
      { text := text, x := x, y := y
        font := ctx.font, fillStyle := ctx.fillStyle
        textAlign := ctx.textAlign, textBaseline := ctx.textBaseline
        shadowColor := ctx.shadowColor, shadowBlur := ctx.shadowBlur
        shadowOffsetX := ctx.shadowOffsetX, shadowOffsetY := ctx.shadowOffsetY }] }

/-- A canvas: dimensions plus its 2D context. -/
structure Canvas where
  width : Nat
  height : Nat
  ctx : Ctx
  deriving DecidableEq, Repr

/-- `createCanvas(w, h)`: a fresh canvas whose context has the
canvas-spec default state. -/
def createCanvas (w h : Nat) : Canvas :=
  { width := w, height := h, ctx := {} }

/-- `canvas.toDataURL(mime)`: the encoded image.  Encoding is a
deterministic function of the canvas pixel state, which in this model is
determined by the dimensions and the operation log, so we represent the
data URI by that state paired with the mime type. -/
structure DataURL where
  mime : String
  canvas : Canvas
  deriving DecidableEq, Repr

def Canvas.toDataURL (c : Canvas) (mime : String) : DataURL :=
  { mime := mime, canvas := c }

/-- `drawTextWithShadow` (source lines 23-48): sets font, fill, alignment
and baseline, applies the fixed drop shadow, draws the text, then resets
`shadowColor` to `transparent` and `shadowBlur` to `0`. -/
def drawTextWithShadow (ctx : Ctx) (text : String) (x y : ℚ)
    (font : String) (fillStyle : String)
    (textAlign : TextAlign) (textBaseline : TextBaseline) : Ctx :=
  let ctx := { ctx with font := font }
  let ctx := { ctx with fillStyle := fillStyle }
  let ctx := { ctx with textAlign := textAlign }
  let ctx := { ctx with textBaseline := textBaseline }
  let ctx := { ctx with shadowColor := "rgba(0, 0, 0, 0.8)" }
  let ctx := { ctx with shadowBlur := (10 : ℚ) }
  let ctx := { ctx with shadowOffsetX := (0 : ℚ) }
  let ctx := { ctx with shadowOffsetY := (0 : ℚ) }
  let ctx := ctx.fillText text x y
  let ctx := { ctx with shadowColor := "transparent" }
  { ctx with shadowBlur := (0 : ℚ) }

/-! ### JS number stringification

Template literals such as `` `${percentage}%` `` stringify the number.
JS numbers are binary floats, hence dyadic rationals, and every dyadic
rational has a finite decimal expansion; we model the ECMA-262
`Number::toString` algorithm on ℚ with fuel bounded by the denominator:
the digit string `s` and decimal exponent `n` of the value are computed
and then laid out in plain form for `n ≤ 21`, with a leading `0.` for
small fractions down to `1e-6`, and in exponential form (`1e+21`,
`1e-7`) outside that window. -/

/-- The decimal digit character for `n < 10`. -/
def digitChar (n : Nat) : Char := Char.ofNat (48 + n)

/-- Decimal digits of a natural number, most significant first
(fuel-structured; `fuel > n` suffices). -/
def natDigitsAux : Nat → Nat → List Char
  | 0, _ => []
  | fuel + 1, n =>
    if n < 10 then [digitChar n]
    else natDigitsAux fuel (n / 10) ++ [digitChar (n % 10)]

/-- Decimal rendering of a natural number. -/
def natToString (n : Nat) : String := String.mk (natDigitsAux (n + 1) n)

/-- Digits of the fractional part `n / den` with `n < den`, stopping when
the remainder reaches zero (fuel-structured; any denominator of the form
2^a 5^b terminates within the fuel). -/
def fracDigitsAux : Nat → Nat → Nat → List Char
  | 0, _, _ => []
  | fuel + 1, n, den =>
    if n = 0 then []
    else digitChar (n * 10 / den) :: fracDigitsAux fuel (n * 10 % den) den

/-- Leading zero characters removed. -/
def stripLeadingZeros (l : List Char) : List Char :=
  l.dropWhile fun c => c = '0'

/-- Trailing zero characters removed. -/
def stripTrailingZeros (l : List Char) : List Char :=
  (l.reverse.dropWhile fun c => c = '0').reverse

/-- The ECMA-262 `Number::toString` layout for a positive value with
digit string `s` (no leading or trailing zeros) and decimal exponent `n`
(the value is `0.s × 10^n`): plain digits padded with zeros when
`|s| ≤ n ≤ 21`, digits with an interior decimal point when
`0 < n ≤ 21 < |s| + (21 - n)`, a `0.`-prefixed fraction when
`-6 < n ≤ 0`, and otherwise exponential notation `d.ddd e±(n-1)`. -/
def jsDigitsExpChars (s : List Char) (n : Int) : List Char :=
  if (s.length : Int) ≤ n ∧ n ≤ 21 then
    s ++ List.replicate (n - (s.length : Int)).toNat '0'
  else if 0 < n ∧ n ≤ 21 then
    s.take n.toNat ++ '.' :: s.drop n.toNat
  else if -6 < n ∧ n ≤ 0 then
    '0' :: '.' :: (List.replicate (-n).toNat '0' ++ s)
  else
    match s with
    | [] => []
    | d :: rest =>
        [d] ++ (if rest.isEmpty then [] else '.' :: rest)
          ++ ['e'] ++ [if n - 1 < 0 then '-' else '+']
          ++ natDigitsAux ((n - 1).natAbs + 1) (n - 1).natAbs

/-- JS rendering of a non-negative rational, ECMA-262 style.  The
integer part of `q ≥ 0` is `q.num.toNat / q.den` and the fractional
remainder is `q.num.toNat % q.den` over `q.den`; the digit string and
decimal exponent are assembled from both parts and laid out by
`jsDigitsExpChars`. -/
def jsNumToStringNonneg (q : ℚ) : String :=
  if q.num.toNat / q.den = 0 then
    if q.num.toNat % q.den = 0 then "0"
    else String.mk (jsDigitsExpChars
      (stripLeadingZeros (fracDigitsAux q.den (q.num.toNat % q.den) q.den))
      (-(((fracDigitsAux q.den (q.num.toNat % q.den) q.den).takeWhile
            fun c => c = '0').length : Int)))
  else String.mk (jsDigitsExpChars
    (stripTrailingZeros (natDigitsAux (q.num.toNat / q.den + 1) (q.num.toNat / q.den)
      ++ fracDigitsAux q.den (q.num.toNat % q.den) q.den))
    ((natDigitsAux (q.num.toNat / q.den + 1) (q.num.toNat / q.den)).length : Int))

/-- JS stringification of a number (decimal notation). -/
def jsNumToString (q : ℚ) : String :=
  if q < 0 then "-" ++ jsNumToStringNonneg (-q) else jsNumToStringNonneg q

/-! ### Animal renderer -/

/-- The `AnimalData` interface: four named percentage values. -/
structure AnimalData where
  lobo : ℚ
  aguia : ℚ
  tubarao : ℚ
  gato : ℚ
  deriving DecidableEq, Repr

/-- The four animal keys, in the declaration order of the interface. -/
inductive AnimalKey
  | lobo | aguia | tubarao | gato
  deriving DecidableEq, Repr

/-- `Object.entries(data)` for an `AnimalData` object built in interface
key order: the four key/value pairs in enumeration order
lobo, aguia, tubarao, gato. -/
def animalEntries (data : AnimalData) : List (AnimalKey × ℚ) :=
  [(.lobo, data.lobo), (.aguia, data.aguia),
   (.tubarao, data.tubarao), (.gato, data.gato)]

/-- One step of the maximum-finding loop (source lines 63-68): strict `>`
against the running maximum. -/
def findHighestStep (acc : Option AnimalKey × ℚ) (e : AnimalKey × ℚ) :
    Option AnimalKey × ℚ :=
  if e.2 > acc.2 then (some e.1, e.2) else acc

/-- The maximum-finding fold: running maximum initialized to `-1`,
running name initialized to `null` (`none`). -/
def findHighest (entries : List (AnimalKey × ℚ)) : Option AnimalKey × ℚ :=
  entries.foldl findHighestStep (none, -1)

/-- The static animal position table (source lines 76-81). -/
def animalPositions : AnimalKey → ℚ × ℚ
  | .lobo => (120, 280)
  | .aguia => (420, 280)
  | .tubarao => (120, 630)
  | .gato => (420, 630)

/-- One iteration of the animal drawing loop (source lines 83-92):
emphasis style when the name equals the highest name, normal style
otherwise; text is the value interpolated into a template literal with a
percent sign. -/
def animalDrawStep (highestAnimalName : Option AnimalKey) (ctx : Ctx)
    (e : AnimalKey × ℚ) : Ctx :=
  let fontSize : Nat := if some e.1 = highestAnimalName then 40 else 36
  let color : String := if some e.1 = highestAnimalName then "#FFED00" else "#FFFFFF"
  let font : String := "bold " ++ natToString fontSize ++ "px sans-serif"
  let text : String := jsNumToString e.2 ++ "%"
  let pos := animalPositions e.1
  drawTextWithShadow ctx text pos.1 pos.2 font color .right .middle

/-- `generateAnimalImage` (source lines 50-99).  The awaited
`loadImage(baseImageUrl)` is the only fallible step of the `try` block
and is passed in as an `Except`; the `catch` wraps the failure message
with the animal-processing prefix. -/
def generateAnimalImage (load : Except String Image) (data : AnimalData) :
    Except String DataURL :=
  match load with
  | .error err => .error ("Error during animal image processing: " ++ err)
  | .ok img =>
    let canvas := createCanvas img.width img.height
    let ctx := canvas.ctx
    let ctx := ctx.drawImage img 0 0
    let entries := animalEntries data
    let highestAnimalName := (findHighest entries).1
    let ctx := entries.foldl (animalDrawStep highestAnimalName) ctx
    .ok (Canvas.toDataURL { canvas with ctx := ctx } "image/png")

/-! ### Brain renderer

`req.body.brainData` is a runtime JSON object, so we model it as an
association list of string keys to numbers (its enumerable entries in
order); the static position table is a partial map over strings and the
loop skips entries whose key has no table entry (`if(pos)`). -/

/-- The static brain position/alignment table (source lines 114-119),
looked up by string key. -/
def brainPositions (name : String) : Option (ℚ × ℚ × TextAlign) :=
  if name = "pensante" then some (320, 240, .center)
  else if name = "atuante" then some (320, 780, .center)
  else if name = "razao" then some (48, 450, .left)
  else if name = "emocao" then some (600, 450, .right)
  else none

/-- One iteration of the brain drawing loop (source lines 123-128):
uniform bold 44px sans-serif white text, middle baseline; entries with no
position-table entry are skipped. -/
def brainDrawStep (ctx : Ctx) (e : String × ℚ) : Ctx :=
  match brainPositions e.1 with
  | some pos =>
      drawTextWithShadow ctx (jsNumToString e.2 ++ "%") pos.1 pos.2.1
        ("bold " ++ natToString 44 ++ "px sans-serif") "#FFFFFF" pos.2.2 .middle
  | none => ctx

/-- `generateBrainImage` (source lines 101-135); failure of the image
load is wrapped with the brain-processing prefix. -/
def generateBrainImage (load : Except String Image)
    (data : List (String × ℚ)) : Except String DataURL :=
  match load with
  | .error err => .error ("Error during brain image processing: " ++ err)
  | .ok img =>
    let canvas := createCanvas img.width img.height
    let ctx := canvas.ctx
    let ctx := ctx.drawImage img 0 0
    let ctx := data.foldl brainDrawStep ctx
    .ok (Canvas.toDataURL { canvas with ctx := ctx } "image/png")

/-- Projects a drawing operation to its fill-text call, if it is one. -/
def fillTextOf : DrawOp → Option FillTextCall
  | .fillText c => some c
  | .drawImage _ _ _ => none

/-- The fill-text operations recorded by a successful render, in drawing
order (empty for a failed render). -/
def fillTexts (r : Except String DataURL) : List FillTextCall :=
  match r with
  | .error _ => []
  | .ok u => u.canvas.ctx.ops.filterMap fillTextOf

/-! ### Handler -/

/-- A destructurable request body: each dataset field either present or
absent. -/
structure ReqBody where
  animalData : Option AnimalData
  brainData : Option (List (String × ℚ))
  deriving DecidableEq

/-- The JSON response body: exactly one of the three shapes the handler
serializes. -/
inductive RespBody
  | errOnly (error : String)
  | errDetails (error details : String)
  | images (animalImage brainImage : DataURL)
  deriving DecidableEq, Repr

/-- An HTTP response: status code and JSON body. -/
structure Response where
  status : Nat
  body : RespBody
  deriving DecidableEq, Repr

/-- A renderer invocation, recorded so that claims about which renderers
run can be stated. -/
inductive RendererCall
  | animal | brain
  deriving DecidableEq, Repr

/-- `Promise.all` over the two render promises, modeled deterministically:
when a render rejects, the rejection of the first-listed rejecting
promise is the one propagated. -/
def promiseAll2 {α β : Type} (a : Except String α) (b : Except String β) :
    Except String (α × β) :=
  match a, b with
  | .error e, _ => .error e
  | .ok _, .error e => .error e
  | .ok x, .ok y => .ok (x, y)

/-- Modelled from the spec and JS semantics: destructuring
`const { animalData, brainData } = req.body` when `req.body` is
`undefined`/`null` throws a `TypeError` (an `Error`), whose message this
constant stands for. -/
def destructureNullBodyMessage : String :=
  "Cannot destructure property animalData of req.body as it is undefined."

/-- The Vercel handler (source lines 143-171): 405 on non-POST; the
destructuring of a missing body throws into the catch (500); 400 when
either dataset is missing; otherwise both renders run under
`Promise.all` and either a 200 with both images or a 500 with the
propagated message is returned.  The second component records which
renderers were invoked. -/
def handler (method : String) (reqBody : Option ReqBody)
    (animalLoad brainLoad : Except String Image) :
    Response × List RendererCall :=
  if method ≠ "POST" then
    ({ status := 405, body := .errOnly "Method Not Allowed" }, [])
  else
    match reqBody with
    | none =>
        ({ status := 500,
           body := .errDetails "Failed to generate images." destructureNullBodyMessage }, [])
    | some b =>
        match b.animalData, b.brainData with
        | some animalData, some brainData =>
            let results := promiseAll2 (generateAnimalImage animalLoad animalData)
                                       (generateBrainImage brainLoad brainData)
            (match results with
             | .ok (animalImage, brainImage) =>
                ({ status := 200, body := .images animalImage brainImage },
                 [.animal, .brain])
             | .error e =>
                ({ status := 500, body := .errDetails "Failed to generate images." e },
                 [.animal, .brain]))
        | _, _ =>
            ({ status := 400,
               body := .errOnly "Request body must contain \"animalData\" and \"brainData\" objects." }, [])

/-! ### Spec-side definitions and concrete inputs

The following definitions restate parts of the specification in order to
compare them with the embedded code; they are written from the spec
wording, not from the source. -/

/-- The value of one animal key in a profile. -/
def AnimalData.value (d : AnimalData) : AnimalKey → ℚ
  | .lobo => d.lobo
  | .aguia => d.aguia
  | .tubarao => d.tubarao
  | .gato => d.gato

/-- Spec-modelled: the maximum of the four profile values. -/
def specMaxValue (d : AnimalData) : ℚ :=
  max (max (max d.lobo d.aguia) d.tubarao) d.gato

/-- Spec-modelled: the first key in enumeration order
lobo, aguia, tubarao, gato whose value attains the maximum. -/
def specFirstMaxKey (d : AnimalData) : AnimalKey :=
  if d.lobo = specMaxValue d then .lobo
  else if d.aguia = specMaxValue d then .aguia
  else if d.tubarao = specMaxValue d then .tubarao
  else .gato

/-- The fill-text call the animal loop records for entry `e` when the
running-maximum name is `highestAnimalName` (definitional unfolding of
`animalDrawStep` composed with `drawTextWithShadow`). -/
def animalCallOf (highestAnimalName : Option AnimalKey) (e : AnimalKey × ℚ) :
    FillTextCall :=
  { text := jsNumToString e.2 ++ "%"
    x := (animalPositions e.1).1
    y := (animalPositions e.1).2
    font := "bold " ++ natToString (if some e.1 = highestAnimalName then 40 else 36)
              ++ "px sans-serif"
    fillStyle := if some e.1 = highestAnimalName then "#FFED00" else "#FFFFFF"
    textAlign := .right
    textBaseline := .middle
    shadowColor := "rgba(0, 0, 0, 0.8)"
    shadowBlur := 10
    shadowOffsetX := 0
    shadowOffsetY := 0 }

/-- Spec-modelled expected call for one animal entry: emphasis style
(40px, yellow) exactly when the key is the first maximum, normal style
(36px, white) otherwise; right-aligned, middle baseline, at the fixed
position. -/
def specAnimalCall (d : AnimalData) (k : AnimalKey) : FillTextCall :=
  { text := jsNumToString (d.value k) ++ "%"
    x := (animalPositions k).1
    y := (animalPositions k).2
    font := if k = specFirstMaxKey d then "bold 40px sans-serif" else "bold 36px sans-serif"
    fillStyle := if k = specFirstMaxKey d then "#FFED00" else "#FFFFFF"
    textAlign := .right
    textBaseline := .middle
    shadowColor := "rgba(0, 0, 0, 0.8)"
    shadowBlur := 10
    shadowOffsetX := 0
    shadowOffsetY := 0 }

/-- The fill-text call the brain loop records for entry `e`, when its key
has a position-table entry; `none` when the key has no table entry and
the loop skips it. -/
def brainCallOf (e : String × ℚ) : Option FillTextCall :=
  (brainPositions e.1).map fun pos =>
    { text := jsNumToString e.2 ++ "%"
      x := pos.1
      y := pos.2.1
      font := "bold " ++ natToString 44 ++ "px sans-serif"
      fillStyle := "#FFFFFF"
      textAlign := pos.2.2
      textBaseline := .middle
      shadowColor := "rgba(0, 0, 0, 0.8)"
      shadowBlur := 10
      shadowOffsetX := 0
      shadowOffsetY := 0 }

/-- Modelled from the spec: a string that is a decimal integer literal
(optional minus sign, then one or more digits). -/
def isIntLiteralChars : List Char → Bool
  | [] => false
  | c :: rest =>
    if c = '-' then !rest.isEmpty && rest.all Char.isDigit
    else (c :: rest).all Char.isDigit

/-- Modelled from the spec phrase "an integer followed by a percent
sign". -/
def isIntPercentText (s : String) : Bool :=
  s.data.getLast? == some '%' && isIntLiteralChars s.data.dropLast

/-- A concrete base image used by witnesses. -/
def cImg : Image := { width := 700, height := 900, src := "base" }

/-- The animal example profile from the spec. -/
def cAnimal : AnimalData := { lobo := 10, aguia := 55, tubarao := 20, gato := 15 }

/-- An animal profile whose values all lie at or below the running
maximum initialization value `-1`. -/
def lowAnimal : AnimalData := { lobo := -1, aguia := -2, tubarao := -3, gato := -1 }

/-- An animal profile with the non-integer value 10.5 (the reduced
fraction 21/2) for `lobo`. -/
def fracAnimal : AnimalData :=
  { lobo := Rat.mk' 21 2 (by decide) (by decide)
    aguia := 55
    tubarao := 20
    gato := 15 }

/-- A concrete brain dataset with one key absent from the position
table. -/
def cBrain : List (String × ℚ) :=
  [("pensante", 30), ("atuante", 25), ("razao", 25), ("emocao", 20)]

/-- A concrete brain dataset containing a key with no position-table
entry. -/
def cBrainMixed : List (String × ℚ) :=
  [("pensante", 30), ("foo", 9), ("emocao", 20)]

/-- The fill-text call expected for the concrete pensante entry. -/
def pensanteCall : FillTextCall :=
  { text := "30%"
    x := 320
    y := 240
    font := "bold 44px sans-serif"
    fillStyle := "#FFFFFF"
    textAlign := .center
    textBaseline := .middle
    shadowColor := "rgba(0, 0, 0, 0.8)"
    shadowBlur := 10
    shadowOffsetX := 0
    shadowOffsetY := 0 }

/-- The fill-text call expected for the concrete lobo entry of the
example profile (not the maximum, hence normal style). -/
def loboCall : FillTextCall :=
  { text := "10%"
    x := 120
    y := 280
    font := "bold 36px sans-serif"
    fillStyle := "#FFFFFF"
    textAlign := .right
    textBaseline := .middle
    shadowColor := "rgba(0, 0, 0, 0.8)"
    shadowBlur := 10
    shadowOffsetX := 0
    shadowOffsetY := 0 }

/-- A request body missing the animal dataset. -/
def cBodyNoAnimal : ReqBody := { animalData := none, brainData := some cBrain }

/-- A request body with both datasets. -/
def cBodyFull : ReqBody := { animalData := some cAnimal, brainData := some cBrain }

end GenerateImages

namespace GenerateImages

/-- C3: after every call to `drawTextWithShadow` the shadow
configuration is reset to the transparent color and zero blur, so no
shadow state set by one draw is observable by the next draw on the same
context. -/
theorem drawTextWithShadow_resets_shadow (ctx : Ctx) (text : String)
    (x y : ℚ) (font fillStyle : String)
    (textAlign : TextAlign) (textBaseline : TextBaseline) :
    (drawTextWithShadow ctx text x y font fillStyle textAlign textBaseline).shadowColor
        = "transparent"
      ∧ (drawTextWithShadow ctx text x y font fillStyle textAlign textBaseline).shadowBlur
        = 0 := by
  constructor <;> rfl

/-- The operation appended by one animal loop iteration. -/
lemma animalDrawStep_ops (h : Option AnimalKey) (ctx : Ctx) (e : AnimalKey × ℚ) :
    (animalDrawStep h ctx e).ops = ctx.ops ++ [DrawOp.fillText (animalCallOf h e)] := rfl

/-- The animal drawing loop appends exactly one fill-text operation per
entry, in order. -/
lemma animal_foldl_ops (h : Option AnimalKey) (entries : List (AnimalKey × ℚ))
    (ctx : Ctx) :
    (entries.foldl (animalDrawStep h) ctx).ops
      = ctx.ops ++ entries.map fun e => DrawOp.fillText (animalCallOf h e) := by
  induction entries generalizing ctx with
  | nil => simp
  | cons e rest ih =>
      rw [List.foldl_cons, ih, animalDrawStep_ops]
      simp

/-- A successful animal render records one fill-text call per entry,
styled against the fold-computed running maximum. -/
lemma fillTexts_animal_ok (img : Image) (d : AnimalData) :
    fillTexts (generateAnimalImage (.ok img) d)
      = (animalEntries d).map (animalCallOf ((findHighest (animalEntries d)).1)) := by
  show (((animalEntries d).foldl
          (animalDrawStep ((findHighest (animalEntries d)).1))
          (((createCanvas img.width img.height).ctx).drawImage img 0 0)).ops).filterMap
        fillTextOf = _
  rw [animal_foldl_ops]
  simp [createCanvas, Ctx.drawImage, fillTextOf, animalEntries, List.filterMap_cons]

/-- Under valid (non-negative) profile values the maximum-finding fold
returns exactly the first key in enumeration order attaining the
maximum. -/
lemma findHighest_fst_eq (d : AnimalData)
    (h0 : 0 ≤ d.lobo) (h1 : 0 ≤ d.aguia) (h2 : 0 ≤ d.tubarao) (h3 : 0 ≤ d.gato) :
    (findHighest (animalEntries d)).1 = some (specFirstMaxKey d) := by
  have hl : d.lobo > -1 := by linarith
  rcases le_or_lt d.aguia d.lobo with hA | hA
  · have nA : ¬ d.aguia > d.lobo := not_lt.mpr hA
    rcases le_or_lt d.tubarao d.lobo with hT | hT
    · have nT : ¬ d.tubarao > d.lobo := not_lt.mpr hT
      rcases le_or_lt d.gato d.lobo with hG | hG
      · have nG : ¬ d.gato > d.lobo := not_lt.mpr hG
        have res : (findHighest (animalEntries d)).1 = some AnimalKey.lobo := by
          simp [findHighest, animalEntries, findHighestStep, hl, nA, nT, nG]
        have hmax : specMaxValue d = d.lobo := by
          unfold specMaxValue
          rw [max_eq_left hA, max_eq_left hT, max_eq_left hG]
        rw [res]
        simp [specFirstMaxKey, hmax]
      · have res : (findHighest (animalEntries d)).1 = some AnimalKey.gato := by
          simp [findHighest, animalEntries, findHighestStep, hl, nA, nT, hG]
        have hmax : specMaxValue d = d.gato := by
          unfold specMaxValue
          rw [max_eq_left hA, max_eq_left hT, max_eq_right (le_of_lt hG)]
        have e0 : d.lobo ≠ d.gato := ne_of_lt hG
        have e1 : d.aguia ≠ d.gato := ne_of_lt (lt_of_le_of_lt hA hG)
        have e2 : d.tubarao ≠ d.gato := ne_of_lt (lt_of_le_of_lt hT hG)
        rw [res]
        simp [specFirstMaxKey, hmax, e0, e1, e2]
    · rcases le_or_lt d.gato d.tubarao with hG | hG
      · have nG : ¬ d.gato > d.tubarao := not_lt.mpr hG
        have res : (findHighest (animalEntries d)).1 = some AnimalKey.tubarao := by
          simp [findHighest, animalEntries, findHighestStep, hl, nA, hT, nG]
        have hmax : specMaxValue d = d.tubarao := by
          unfold specMaxValue
          rw [max_eq_left hA, max_eq_right (le_of_lt hT), max_eq_left hG]
        have e0 : d.lobo ≠ d.tubarao := ne_of_lt hT
        have e1 : d.aguia ≠ d.tubarao := ne_of_lt (lt_of_le_of_lt hA hT)
        rw [res]
        simp [specFirstMaxKey, hmax, e0, e1]
      · have res : (findHighest (animalEntries d)).1 = some AnimalKey.gato := by
          simp [findHighest, animalEntries, findHighestStep, hl, nA, hT, hG]
        have hmax : specMaxValue d = d.gato := by
          unfold specMaxValue
          rw [max_eq_left hA, max_eq_right (le_of_lt hT), max_eq_right (le_of_lt hG)]
        have e0 : d.lobo ≠ d.gato := ne_of_lt (lt_trans hT hG)
        have e1 : d.aguia ≠ d.gato := ne_of_lt (lt_of_le_of_lt hA (lt_trans hT hG))
        have e2 : d.tubarao ≠ d.gato := ne_of_lt hG
        rw [res]
        simp [specFirstMaxKey, hmax, e0, e1, e2]
  · rcases le_or_lt d.tubarao d.aguia with hT | hT
    · have nT : ¬ d.tubarao > d.aguia := not_lt.mpr hT
      rcases le_or_lt d.gato d.aguia with hG | hG
      · have nG : ¬ d.gato > d.aguia := not_lt.mpr hG
        have res : (findHighest (animalEntries d)).1 = some AnimalKey.aguia := by
          simp [findHighest, animalEntries, findHighestStep, hl, hA, nT, nG]
        have hmax : specMaxValue d = d.aguia := by
          unfold specMaxValue
          rw [max_eq_right (le_of_lt hA), max_eq_left hT, max_eq_left hG]
        have e0 : d.lobo ≠ d.aguia := ne_of_lt hA
        rw [res]
        simp [specFirstMaxKey, hmax, e0]
      · have res : (findHighest (animalEntries d)).1 = some AnimalKey.gato := by
          simp [findHighest, animalEntries, findHighestStep, hl, hA, nT, hG]
        have hmax : specMaxValue d = d.gato := by
          unfold specMaxValue
          rw [max_eq_right (le_of_lt hA), max_eq_left hT, max_eq_right (le_of_lt hG)]
        have e0 : d.lobo ≠ d.gato := ne_of_lt (lt_trans hA hG)
        have e1 : d.aguia ≠ d.gato := ne_of_lt hG
        have e2 : d.tubarao ≠ d.gato := ne_of_lt (lt_of_le_of_lt hT hG)
        rw [res]
        simp [specFirstMaxKey, hmax, e0, e1, e2]
    · rcases le_or_lt d.gato d.tubarao with hG | hG
      · have nG : ¬ d.gato > d.tubarao := not_lt.mpr hG
        have res : (findHighest (animalEntries d)).1 = some AnimalKey.tubarao := by
          simp [findHighest, animalEntries, findHighestStep, hl, hA, hT, nG]
        have hmax : specMaxValue d = d.tubarao := by
          unfold specMaxValue
          rw [max_eq_right (le_of_lt hA), max_eq_right (le_of_lt hT), max_eq_left hG]
        have e0 : d.lobo ≠ d.tubarao := ne_of_lt (lt_trans hA hT)
        have e1 : d.aguia ≠ d.tubarao := ne_of_lt hT
        rw [res]
        simp [specFirstMaxKey, hmax, e0, e1]
      · have res : (findHighest (animalEntries d)).1 = some AnimalKey.gato := by
          simp [findHighest, animalEntries, findHighestStep, hl, hA, hT, hG]
        have hmax : specMaxValue d = d.gato := by
          unfold specMaxValue
          rw [max_eq_right (le_of_lt hA), max_eq_right (le_of_lt hT),
            max_eq_right (le_of_lt hG)]
        have e0 : d.lobo ≠ d.gato := ne_of_lt (lt_trans hA (lt_trans hT hG))
        have e1 : d.aguia ≠ d.gato := ne_of_lt (lt_trans hT hG)
        have e2 : d.tubarao ≠ d.gato := ne_of_lt hG
        rw [res]
        simp [specFirstMaxKey, hmax, e0, e1, e2]

/-- The call the loop records coincides with the spec-side expected call
once the running maximum equals the spec-side first maximum. -/
lemma animalCallOf_eq_spec (d : AnimalData) (k : AnimalKey) :
    animalCallOf (some (specFirstMaxKey d)) (k, d.value k) = specAnimalCall d k := by
  by_cases hk : k = specFirstMaxKey d
  · simp [animalCallOf, specAnimalCall, hk]
    rfl
  · simp [animalCallOf, specAnimalCall, hk]
    rfl

/-- C1: for every valid animal profile, the drawn entries are exactly the
four keys in enumeration order, the first key attaining the maximum value
drawn with font size 40 and color #FFED00, and every other key with font
size 36 and color #FFFFFF; on ties the first key in the enumeration
order lobo, aguia, tubarao, gato wins, because the fold compares with
strict greater-than against a running maximum initialized to -1. -/
theorem animal_emphasis_first_max (img : Image) (d : AnimalData)
    (h0 : 0 ≤ d.lobo) (h1 : 0 ≤ d.aguia) (h2 : 0 ≤ d.tubarao) (h3 : 0 ≤ d.gato) :
    fillTexts (generateAnimalImage (.ok img) d)
      = [AnimalKey.lobo, AnimalKey.aguia, AnimalKey.tubarao, AnimalKey.gato].map
          (specAnimalCall d) := by
  rw [fillTexts_animal_ok, findHighest_fst_eq d h0 h1 h2 h3]
  simp only [animalEntries, List.map_cons, List.map_nil]
  rw [show d.lobo = d.value .lobo from rfl, show d.aguia = d.value .aguia from rfl,
    show d.tubarao = d.value .tubarao from rfl, show d.gato = d.value .gato from rfl]
  rw [animalCallOf_eq_spec, animalCallOf_eq_spec, animalCallOf_eq_spec,
    animalCallOf_eq_spec]

/-- Witness for C1 at the example profile from the spec. -/
theorem animal_emphasis_first_max_witness :
    fillTexts (generateAnimalImage (.ok cImg) cAnimal)
      = [AnimalKey.lobo, AnimalKey.aguia, AnimalKey.tubarao, AnimalKey.gato].map
          (specAnimalCall cAnimal) :=
  animal_emphasis_first_max cImg cAnimal (by norm_num [cAnimal]) (by norm_num [cAnimal])
    (by norm_num [cAnimal]) (by norm_num [cAnimal])

/-- When every value lies at or below -1, no fold step fires. -/
lemma findHighest_fst_none (d : AnimalData)
    (h0 : d.lobo ≤ -1) (h1 : d.aguia ≤ -1) (h2 : d.tubarao ≤ -1) (h3 : d.gato ≤ -1) :
    (findHighest (animalEntries d)).1 = none := by
  have n0 : ¬ d.lobo > (-1 : ℚ) := not_lt.mpr h0
  have n1 : ¬ d.aguia > (-1 : ℚ) := not_lt.mpr h1
  have n2 : ¬ d.tubarao > (-1 : ℚ) := not_lt.mpr h2
  have n3 : ¬ d.gato > (-1 : ℚ) := not_lt.mpr h3
  simp [findHighest, animalEntries, findHighestStep, n0, n1, n2, n3]

/-- C9: when all four profile values are at most -1, the running maximum
initialized to -1 is never exceeded, no entry is selected as the maximum,
and every entry is drawn with the normal style (36px, #FFFFFF). -/
theorem animal_all_low_no_emphasis (img : Image) (d : AnimalData)
    (h0 : d.lobo ≤ -1) (h1 : d.aguia ≤ -1) (h2 : d.tubarao ≤ -1) (h3 : d.gato ≤ -1) :
    (findHighest (animalEntries d)).1 = none
      ∧ ∀ c ∈ fillTexts (generateAnimalImage (.ok img) d),
          c.font = "bold 36px sans-serif" ∧ c.fillStyle = "#FFFFFF" := by
  have hn := findHighest_fst_none d h0 h1 h2 h3
  refine ⟨hn, ?_⟩
  rw [fillTexts_animal_ok, hn]
  intro c hc
  simp only [animalEntries, List.map_cons, List.map_nil, List.mem_cons,
    List.not_mem_nil, or_false] at hc
  rcases hc with rfl | rfl | rfl | rfl <;> refine ⟨?_, ?_⟩ <;>
    simp [animalCallOf] <;> decide

/-- Witness for C9 at a concrete all-low profile. -/
theorem animal_all_low_no_emphasis_witness :
    (findHighest (animalEntries lowAnimal)).1 = none
      ∧ ∀ c ∈ fillTexts (generateAnimalImage (.ok cImg) lowAnimal),
          c.font = "bold 36px sans-serif" ∧ c.fillStyle = "#FFFFFF" :=
  animal_all_low_no_emphasis cImg lowAnimal (by norm_num [lowAnimal])
    (by norm_num [lowAnimal]) (by norm_num [lowAnimal]) (by norm_num [lowAnimal])

/-- The operations appended by one brain loop iteration: one fill-text
call when the key has a table entry, none otherwise. -/
lemma brainDrawStep_ops (ctx : Ctx) (e : String × ℚ) :
    (brainDrawStep ctx e).ops
      = ctx.ops ++ ((brainCallOf e).map DrawOp.fillText).toList := by
  unfold brainDrawStep brainCallOf
  rcases h : brainPositions e.1 with _ | pos
  · simp [h]
  · simp [h, drawTextWithShadow, Ctx.fillText]

/-- The brain drawing loop appends exactly the fill-text operations of
the entries whose keys have table entries, in order. -/
lemma brain_foldl_ops (data : List (String × ℚ)) (ctx : Ctx) :
    (data.foldl brainDrawStep ctx).ops
      = ctx.ops ++ data.filterMap fun e => (brainCallOf e).map DrawOp.fillText := by
  induction data generalizing ctx with
  | nil => simp
  | cons e rest ih =>
      rw [List.foldl_cons, ih, brainDrawStep_ops]
      rcases h : brainCallOf e with _ | c
      · simp [h]
      · simp [h]

/-- A successful brain render records one fill-text call for each entry
whose key is in the position table, and nothing for the others. -/
lemma fillTexts_brain_ok (img : Image) (data : List (String × ℚ)) :
    fillTexts (generateBrainImage (.ok img) data) = data.filterMap brainCallOf := by
  show ((data.foldl brainDrawStep
      (((createCanvas img.width img.height).ctx).drawImage img 0 0)).ops).filterMap
        fillTextOf = _
  rw [brain_foldl_ops]
  simp only [createCanvas, Ctx.drawImage, List.nil_append, List.filterMap_append,
    List.filterMap_cons, fillTextOf, List.filterMap_nil, List.filterMap_filterMap]
  congr 1
  funext e
  rcases h : brainCallOf e with _ | c <;> simp [h, fillTextOf]

/-- C2: every entry the brain renderer draws uses the same style — bold
44px sans-serif, fill color #FFFFFF, middle baseline — regardless of the
entry values; the brain loop applies no maximum computation. -/
theorem brain_uniform_style (img : Image) (data : List (String × ℚ))
    (c : FillTextCall) (hc : c ∈ fillTexts (generateBrainImage (.ok img) data)) :
    c.font = "bold 44px sans-serif" ∧ c.fillStyle = "#FFFFFF"
      ∧ c.textBaseline = TextBaseline.middle := by
  rw [fillTexts_brain_ok] at hc
  rcases List.mem_filterMap.mp hc with ⟨e, _, he⟩
  simp only [brainCallOf] at he
  rcases Option.map_eq_some'.mp he with ⟨pos, _, rfl⟩
  refine ⟨?_, rfl, rfl⟩
  show "bold " ++ natToString 44 ++ "px sans-serif" = "bold 44px sans-serif"
  decide

/-- Witness for C2 at a concrete profile and entry. -/
theorem brain_uniform_style_witness :
    pensanteCall.font = "bold 44px sans-serif"
      ∧ pensanteCall.fillStyle = "#FFFFFF"
      ∧ pensanteCall.textBaseline = TextBaseline.middle :=
  brain_uniform_style cImg cBrain pensanteCall (by
    rw [fillTexts_brain_ok]
    decide)

/-- C7: for every brain dataset the render completes and returns an
encoded image; the recorded draws are exactly the entries whose keys
appear in the position table (`brainCallOf` is `none` precisely on the
skipped keys), so keys absent from the table are silently skipped while
all keys present in the table are drawn. -/
theorem brain_skips_missing_keys (img : Image) (data : List (String × ℚ)) :
    (∃ u, generateBrainImage (.ok img) data = Except.ok u)
      ∧ fillTexts (generateBrainImage (.ok img) data) = data.filterMap brainCallOf
      ∧ ∀ e ∈ data, brainPositions e.1 = none → brainCallOf e = none := by
  refine ⟨⟨_, rfl⟩, fillTexts_brain_ok img data, ?_⟩
  intro e _ h
  simp [brainCallOf, h]

/-- Witness for C7 at a concrete dataset containing a key with no table
entry. -/
theorem brain_skips_missing_keys_witness :
    (∃ u, generateBrainImage (.ok cImg) cBrainMixed = Except.ok u)
      ∧ fillTexts (generateBrainImage (.ok cImg) cBrainMixed)
          = cBrainMixed.filterMap brainCallOf
      ∧ ∀ e ∈ cBrainMixed, brainPositions e.1 = none → brainCallOf e = none :=
  brain_skips_missing_keys cImg cBrainMixed

/-- Characters produced by `digitChar` below 10 are digits. -/
lemma digitChar_isDigit (n : Nat) (h : n < 10) : (digitChar n).isDigit = true := by
  interval_cases n <;> decide

/-- Every character of a rendered natural number is a digit. -/
lemma natDigitsAux_isDigit (fuel : Nat) :
    ∀ (n : Nat), ∀ c ∈ natDigitsAux fuel n, c.isDigit = true := by
  induction fuel with
  | zero => intro n c hc; simp [natDigitsAux] at hc
  | succ f ih =>
      intro n c hc
      by_cases hn : n < 10
      · simp [natDigitsAux, hn] at hc
        subst hc
        exact digitChar_isDigit n hn
      · simp [natDigitsAux, hn] at hc
        rcases hc with hc | hc
        · exact ih (n / 10) c hc
        · subst hc
          exact digitChar_isDigit (n % 10) (Nat.mod_lt _ (by norm_num))

/-- A rendered natural number has at least one character. -/
lemma natToString_ne_nil (n : Nat) : (natToString n).data ≠ [] := by
  show natDigitsAux (n + 1) n ≠ []
  by_cases hn : n < 10 <;> simp [natDigitsAux, hn]

/-- A nonempty all-digit character list is an integer literal. -/
lemma isIntLiteralChars_of_digits (l : List Char) (hne : l ≠ [])
    (hall : ∀ c ∈ l, c.isDigit = true) : isIntLiteralChars l = true := by
  cases l with
  | nil => exact absurd rfl hne
  | cons c rest =>
      have hc : c.isDigit = true := hall c (List.mem_cons_self c rest)
      have hcm : c ≠ '-' := by
        intro h
        subst h
        exact absurd hc (by decide)
      simp only [isIntLiteralChars, if_neg hcm]
      exact List.all_eq_true.mpr hall

/-- A minus sign followed by a nonempty all-digit list is an integer
literal. -/
lemma isIntLiteralChars_neg (l : List Char) (hne : l ≠ [])
    (hall : ∀ c ∈ l, c.isDigit = true) : isIntLiteralChars ('-' :: l) = true := by
  show (!l.isEmpty && l.all Char.isDigit) = true
  simp only [Bool.and_eq_true]
  refine ⟨?_, List.all_eq_true.mpr hall⟩
  cases l with
  | nil => exact absurd rfl hne
  | cons c rest => rfl

/-- The length of `dropWhile` never exceeds the original length. -/
lemma dropWhile_length_le (p : Char → Bool) (l : List Char) :
    (l.dropWhile p).length ≤ l.length := by
  induction l with
  | nil => simp
  | cons a t ih =>
      rw [List.dropWhile_cons]
      by_cases hp : p a = true
      · rw [if_pos hp]
        exact Nat.le_succ_of_le ih
      · rw [if_neg hp]

/-- Membership is preserved from `dropWhile` back to the list. -/
lemma mem_of_mem_dropWhile (p : Char → Bool) (l : List Char) (c : Char)
    (h : c ∈ l.dropWhile p) : c ∈ l := by
  induction l with
  | nil => simpa using h
  | cons a t ih =>
      rw [List.dropWhile_cons] at h
      by_cases hp : p a = true
      · rw [if_pos hp] at h
        exact List.mem_cons_of_mem a (ih h)
      · rw [if_neg hp] at h
        exact h

/-- Stripping trailing zeros never lengthens a list. -/
lemma length_stripTrailingZeros_le (l : List Char) :
    (stripTrailingZeros l).length ≤ l.length := by
  unfold stripTrailingZeros
  rw [List.length_reverse]
  have h := dropWhile_length_le (fun c => c = '0') l.reverse
  rw [List.length_reverse] at h
  exact h

/-- Characters surviving the trailing-zero strip come from the list. -/
lemma mem_stripTrailingZeros (l : List Char) (c : Char)
    (h : c ∈ stripTrailingZeros l) : c ∈ l := by
  unfold stripTrailingZeros at h
  rw [List.mem_reverse] at h
  exact List.mem_reverse.mp (mem_of_mem_dropWhile _ _ c h)

/-- A natural number below `10 ^ m` has at most `m` decimal digits. -/
lemma natDigitsAux_length_le (fuel : Nat) :
    ∀ (n m : Nat), 1 ≤ m → n < 10 ^ m → (natDigitsAux fuel n).length ≤ m := by
  induction fuel with
  | zero => intro n m _ _; simp [natDigitsAux]
  | succ f ih =>
      intro n m h1 h2
      by_cases hn : n < 10
      · simp only [natDigitsAux, if_pos hn, List.length_singleton]
        exact h1
      · have hm2 : 2 ≤ m := by
          rcases Nat.lt_or_ge m 2 with hlt | hge
          · exfalso
            have hm1 : m = 1 := by omega
            rw [hm1] at h2
            norm_num at h2
            omega
          · exact hge
        simp only [natDigitsAux, if_neg hn, List.length_append,
          List.length_singleton]
        have hdiv : n / 10 < 10 ^ (m - 1) := by
          rw [Nat.div_lt_iff_lt_mul (by norm_num : 0 < 10)]
          have h10 : 10 ^ (m - 1) * 10 = 10 ^ m := by
            rw [← pow_succ]
            congr 1
            omega
          rw [h10]
          exact h2
        have := ih (n / 10) (m - 1) (by omega) hdiv
        omega

/-- For a digit string of at most `n ≤ 21` digits and exponent `n ≥ 1`,
the ECMA layout is the plain zero-padded digit form: nonempty and
all-digit. -/
lemma jsDigitsExpChars_digits (s : List Char) (n : Nat) (h1 : 1 ≤ n)
    (h2 : n ≤ 21) (hk : s.length ≤ n) (hall : ∀ c ∈ s, c.isDigit = true) :
    jsDigitsExpChars s (n : Int) ≠ []
      ∧ ∀ c ∈ jsDigitsExpChars s (n : Int), c.isDigit = true := by
  have hc1 : ((s.length : Int) ≤ (n : Int) ∧ (n : Int) ≤ 21) := by
    constructor
    · exact_mod_cast hk
    · exact_mod_cast h2
  unfold jsDigitsExpChars
  rw [if_pos hc1]
  constructor
  · intro he
    have hlen := congrArg List.length he
    simp only [List.length_append, List.length_replicate, List.length_nil] at hlen
    omega
  · intro c hc
    rcases List.mem_append.mp hc with h | h
    · exact hall c h
    · rw [List.eq_of_mem_replicate h]
      decide

/-- The JS rendering of a non-negative integer-valued rational below the
exponential threshold is a nonempty digit string. -/
lemma jsNumToStringNonneg_int_digits (r : ℚ) (hr : r.den = 1)
    (hb : r.num.toNat < 1000000000000000000000) :
    (jsNumToStringNonneg r).data ≠ []
      ∧ ∀ c ∈ (jsNumToStringNonneg r).data, c.isDigit = true := by
  unfold jsNumToStringNonneg
  rw [hr, Nat.div_one, Nat.mod_one]
  have hfrac : fracDigitsAux 1 0 1 = ([] : List Char) := rfl
  rw [hfrac, List.append_nil]
  by_cases hip : r.num.toNat = 0
  · rw [if_pos hip, if_pos rfl]
    exact ⟨by decide, by decide⟩
  · rw [if_neg hip]
    have h21 : (natDigitsAux (r.num.toNat + 1) r.num.toNat).length ≤ 21 := by
      apply natDigitsAux_length_le (r.num.toNat + 1) r.num.toNat 21 (by norm_num)
      have hpow : (10 : ℕ) ^ 21 = 1000000000000000000000 := by norm_num
      rw [hpow]
      exact hb
    have hpos : 1 ≤ (natDigitsAux (r.num.toNat + 1) r.num.toNat).length :=
      List.length_pos.mpr (natToString_ne_nil r.num.toNat)
    have hdig := jsDigitsExpChars_digits
      (stripTrailingZeros (natDigitsAux (r.num.toNat + 1) r.num.toNat))
      ((natDigitsAux (r.num.toNat + 1) r.num.toNat).length)
      hpos h21
      (length_stripTrailingZeros_le _)
      (fun c hc => natDigitsAux_isDigit _ _ c (mem_stripTrailingZeros _ c hc))
    exact ⟨fun he => hdig.1 he, fun c hc => hdig.2 c hc⟩

/-- The JS rendering of an integer-valued rational below the exponential
threshold 10^21 consists of an optional minus sign followed by digits. -/
lemma isIntLiteralChars_jsNum (q : ℚ) (hden : q.den = 1)
    (habs : q.num.natAbs < 1000000000000000000000) :
    isIntLiteralChars (jsNumToString q).data = true := by
  unfold jsNumToString
  by_cases hq : q < 0
  · rw [if_pos hq]
    have hd : (-q).den = 1 := by rw [Rat.neg_den]; exact hden
    have hb : (-q).num.toNat < 1000000000000000000000 := by
      rw [Rat.neg_num]
      omega
    obtain ⟨hne, hdig⟩ := jsNumToStringNonneg_int_digits (-q) hd hb
    rw [String.data_append]
    show isIntLiteralChars ('-' :: (jsNumToStringNonneg (-q)).data) = true
    exact isIntLiteralChars_neg _ hne hdig
  · rw [if_neg hq]
    exact isIntLiteralChars_of_digits _
      (jsNumToStringNonneg_int_digits q hden (by omega)).1
      (jsNumToStringNonneg_int_digits q hden (by omega)).2

/-- An integer-valued entry below the exponential threshold renders as
an integer followed by a percent sign. -/
lemma isIntPercentText_jsNum (q : ℚ) (hden : q.den = 1)
    (habs : q.num.natAbs < 1000000000000000000000) :
    isIntPercentText (jsNumToString q ++ "%") = true := by
  unfold isIntPercentText
  have hdata : (jsNumToString q ++ "%").data = (jsNumToString q).data ++ ['%'] := by
    rw [String.data_append]
  rw [hdata, List.getLast?_concat, List.dropLast_concat]
  simp [isIntLiteralChars_jsNum q hden habs]

/-- At the exponential threshold the model renders the integer 10^21 in
exponential notation, as JS does. -/
lemma jsNumToString_pow21 :
    jsNumToString (1000000000000000000000 : ℚ) = "1e+21" := by decide

/-- C6 (amended): the text drawn for each animal entry is the JS
rendering of its value suffixed with a percent sign, so whenever every
profile value is an integer of magnitude below 10^21 (the threshold at
which JS Number stringification switches to exponential notation),
every drawn text is an integer followed by a percent sign. -/
theorem animal_text_integer_for_integer_values (img : Image) (d : AnimalData)
    (h0 : d.lobo.den = 1) (h1 : d.aguia.den = 1) (h2 : d.tubarao.den = 1)
    (h3 : d.gato.den = 1)
    (b0 : d.lobo.num.natAbs < 1000000000000000000000)
    (b1 : d.aguia.num.natAbs < 1000000000000000000000)
    (b2 : d.tubarao.num.natAbs < 1000000000000000000000)
    (b3 : d.gato.num.natAbs < 1000000000000000000000) :
    ∀ c ∈ fillTexts (generateAnimalImage (.ok img) d),
      isIntPercentText c.text = true := by
  rw [fillTexts_animal_ok]
  intro c hc
  simp only [animalEntries, List.map_cons, List.map_nil, List.mem_cons,
    List.not_mem_nil, or_false] at hc
  rcases hc with rfl | rfl | rfl | rfl
  · exact isIntPercentText_jsNum d.lobo h0 b0
  · exact isIntPercentText_jsNum d.aguia h1 b1
  · exact isIntPercentText_jsNum d.tubarao h2 b2
  · exact isIntPercentText_jsNum d.gato h3 b3

/-- Witness for the amended C6 at the integer example profile, applied
to its concrete lobo entry. -/
theorem animal_text_integer_for_integer_values_witness :
    isIntPercentText loboCall.text = true :=
  animal_text_integer_for_integer_values cImg cAnimal (by decide) (by decide)
    (by decide) (by decide) (by decide) (by decide) (by decide) (by decide)
    loboCall (by decide)

/-- C6 counterexample: at the profile with lobo = 10.5, the claim that
every rendered text is an integer followed by a percent sign fails — the
lobo entry renders as "10.5%". -/
theorem animal_text_not_integer_counterexample :
    ¬ ∀ c ∈ fillTexts (generateAnimalImage (.ok cImg) fracAnimal),
        isIntPercentText c.text = true := by
  decide

/-- C8: rendering is deterministic — two invocations of a renderer with
equal image-load results and equal profiles return equal encoded
outputs; the render functions depend on nothing besides their
arguments. -/
theorem render_deterministic (al al2 bl bl2 : Except String Image)
    (ad ad2 : AnimalData) (bd bd2 : List (String × ℚ))
    (ha : al = al2) (hb : ad = ad2) (hc : bl = bl2) (hd : bd = bd2) :
    generateAnimalImage al ad = generateAnimalImage al2 ad2
      ∧ generateBrainImage bl bd = generateBrainImage bl2 bd2 := by
  subst ha hb hc hd
  exact ⟨rfl, rfl⟩

/-- Witness for C8 at concrete inputs. -/
theorem render_deterministic_witness :
    generateAnimalImage (.ok cImg) cAnimal = generateAnimalImage (.ok cImg) cAnimal
      ∧ generateBrainImage (.ok cImg) cBrain = generateBrainImage (.ok cImg) cBrain :=
  render_deterministic (.ok cImg) (.ok cImg) (.ok cImg) (.ok cImg)
    cAnimal cAnimal cBrain cBrain rfl rfl rfl rfl

/-- C4: for a POST request carrying both datasets where the animal base
image loads and the brain base image fails to load, the handler responds
500 with details exactly the brain-wrapped message and a body carrying
no image fields; symmetrically, a failure entering the animal renderer
is wrapped with the animal-processing prefix. -/
theorem handler_brain_failure_wrapped (img : Image) (msg : String)
    (ad : AnimalData) (bd : List (String × ℚ)) :
    (handler "POST" (some { animalData := some ad, brainData := some bd })
        (.ok img) (.error msg)).1
      = { status := 500
          body := RespBody.errDetails "Failed to generate images."
            ("Error during brain image processing: " ++ msg) }
      ∧ ∀ (m : String) (ad2 : AnimalData),
          generateAnimalImage (.error m) ad2
            = .error ("Error during animal image processing: " ++ m) :=
  ⟨rfl, fun _ _ => rfl⟩

/-- C5: a POST request whose destructurable body lacks either dataset is
answered 400 with the exact error message, and neither renderer is
invoked. -/
theorem handler_missing_dataset_400 (b : ReqBody) (al bl : Except String Image)
    (h : b.animalData = none ∨ b.brainData = none) :
    handler "POST" (some b) al bl
      = ({ status := 400
           body := RespBody.errOnly
             "Request body must contain \"animalData\" and \"brainData\" objects." },
         []) := by
  obtain ⟨ba, bb⟩ := b
  rcases h with h | h
  · cases ba with
    | some a => exact absurd h (Option.some_ne_none a)
    | none => cases bb <;> rfl
  · cases bb with
    | some x => exact absurd h (Option.some_ne_none x)
    | none => cases ba <;> rfl

/-- Witness for C5 at a concrete body missing the animal dataset. -/
theorem handler_missing_dataset_400_witness :
    handler "POST" (some cBodyNoAnimal) (.ok cImg) (.ok cImg)
      = ({ status := 400
           body := RespBody.errOnly
             "Request body must contain \"animalData\" and \"brainData\" objects." },
         []) :=
  handler_missing_dataset_400 cBodyNoAnimal (.ok cImg) (.ok cImg) (Or.inl rfl)

/-- C10: with no destructurable body a POST request is answered 500 with
the generic failure error (not the 400 validation response), and the 400
response arises only from a destructurable body lacking one of the two
datasets. -/
theorem handler_null_body_500 (al bl : Except String Image) (method : String)
    (rb : Option ReqBody) :
    ((handler "POST" none al bl).1.status = 500
      ∧ (handler "POST" none al bl).1.body
          = RespBody.errDetails "Failed to generate images." destructureNullBodyMessage)
    ∧ ((handler method rb al bl).1.status = 400
        → ∃ b, rb = some b ∧ (b.animalData = none ∨ b.brainData = none)) := by
  refine ⟨⟨rfl, rfl⟩, ?_⟩
  intro h400
  by_cases hm : method = "POST"
  · subst hm
    cases rb with
    | none => simp [handler] at h400
    | some b =>
        obtain ⟨ba, bb⟩ := b
        cases ba with
        | none => exact ⟨⟨none, bb⟩, rfl, Or.inl rfl⟩
        | some a =>
            cases bb with
            | none => exact ⟨⟨some a, none⟩, rfl, Or.inr rfl⟩
            | some bdata =>
                rcases hres : promiseAll2 (generateAnimalImage al a)
                    (generateBrainImage bl bdata) with e | pr <;>
                  simp [handler, hres] at h400
  · exfalso
    have h405 : (handler method rb al bl).1.status = 405 := by
      simp [handler, hm]
    rw [h405] at h400
    exact absurd h400 (by norm_num)

/-- Witness for C10: the null-body 500 response, and a concrete 400
request exhibiting the only-if direction. -/
theorem handler_null_body_500_witness :
    ((handler "POST" none (.ok cImg) (.ok cImg)).1.status = 500
      ∧ (handler "POST" none (.ok cImg) (.ok cImg)).1.body
          = RespBody.errDetails "Failed to generate images." destructureNullBodyMessage)
    ∧ ∃ b, (some cBodyNoAnimal) = some b
        ∧ (b.animalData = none ∨ b.brainData = none) :=
  ⟨(handler_null_body_500 (.ok cImg) (.ok cImg) "POST" (some cBodyNoAnimal)).1,
   (handler_null_body_500 (.ok cImg) (.ok cImg) "POST" (some cBodyNoAnimal)).2 rfl⟩

end GenerateImages
